import Mathlib

set_option maxRecDepth 100000

/-!
Shallow embedding of `src/construct_email.py` (repository zotero-arxiv-daily).

Modelling conventions:
* Python strings are modelled as `List Char` (`Str`); string literals from the
  source are transcribed exactly (braces escaped as `\x7b`/`\x7d`).
* Python `str.format` / f-strings applied to the fixed template literals are
  modelled as concatenation of the literal segments around the interpolated
  values (Python's `format` substitutes each field once and never re-scans the
  substituted values, so this is exact).
* Python floats are modelled as rationals (`ℚ`); the arithmetic in `get_stars`
  only involves small decimal values.
* Calls into external collaborators (the LLM client, the SMTP library) are
  modelled as oracle parameters: the LLM response is an `Except Str Str` input,
  and the SMTP session outcomes are boolean fields of an `SmtpEnv` input.
  Raised Python exceptions are modelled with `Except`.
* `logger.info`/`logger.warning` calls are modelled as an output log list;
  `time.sleep` and the prompt/token-truncation code (which only feed the
  abstracted LLM call) have no observable effect in the model.
-/

namespace ConstructEmail

/-- Python strings, modelled as lists of characters. -/
abbrev Str := List Char

/-- Python whitespace characters as used by `str.strip()` and the regex class
`\s` (restricted to the ASCII range, which is all that occurs here). -/
def pyIsSpace (c : Char) : Bool :=
  c = ' ' || c = '\t' || c = '\n' || c = '\r' || c = '\x0b' || c = '\x0c'

/-- Python `str.strip()`: remove leading and trailing whitespace. -/
def pyStrip (s : Str) : Str :=
  (s.dropWhile pyIsSpace).rdropWhile pyIsSpace

/-- Python `s * n` for strings: `n`-fold repetition. -/
def strRep (s : Str) (n : ℕ) : Str :=
  (List.replicate n s).flatten

/-- Number of positions of `s` at which `pat` occurs (used to count star
glyphs; the star glyph strings cannot overlap themselves, so this is the
plain occurrence count). -/
def occCount (pat : Str) : Str → ℕ
  | [] => 0
  | c :: rest => (if pat.isPrefixOf (c :: rest) then 1 else 0) + occCount pat rest

/-- Worker for `pyReplace`: while `skip > 0` we are inside an occurrence that
was already replaced, so the character is dropped without a new scan (Python's
`str.replace` never re-scans substituted text); at `skip = 0` an occurrence of
`pat` emits `repl` and skips the remaining `pat.length - 1` characters of the
occurrence. -/
def pyReplaceAux (pat repl : Str) : ℕ → Str → Str
  | _, [] => []
  | k + 1, _ :: rest => pyReplaceAux pat repl k rest
  | 0, c :: rest =>
    if pat ≠ [] ∧ pat.isPrefixOf (c :: rest) = true then
      repl ++ pyReplaceAux pat repl (pat.length - 1) rest
    else
      c :: pyReplaceAux pat repl 0 rest

/-- Python `str.replace(pat, repl)` for a non-empty `pat`: scan left to right,
replace each occurrence, never re-scan the substituted text. -/
def pyReplace (pat repl s : Str) : Str :=
  pyReplaceAux pat repl 0 s

/-! ### Template literals from `construct_email.py`

The long HTML strings below are exact transcriptions of the Python template
literals (lines 15-51, 53-63, 65-86, 88-135 of the source), split at their
interpolation points. -/

def fwPre : Str := "\n<!DOCTYPE HTML>\n<html>\n<head>\n  <style>\n    .star-wrapper \x7b\n      font-size: 1.3em; /* 调整星星大小 */\n      line-height: 1; /* 确保垂直对齐 */\n      display: inline-flex;\n      align-items: center; /* 保持对齐 */\n    \x7d\n    .half-star \x7b\n      display: inline-block;\n      width: 0.5em; /* 半颗星的宽度 */\n      overflow: hidden;\n      white-space: nowrap;\n      vertical-align: middle;\n    \x7d\n    .full-star \x7b\n      vertical-align: middle;\n    \x7d\n  </style>\n</head>\n<body>\n\n<div>\n    ".data

def fwPost : Str := "\n</div>\n\n<br><br>\n<div>\nTo unsubscribe, remove your email in your Github Action setting.\n</div>\n\n</body>\n</html>\n".data

def contentToken : Str := "__CONTENT__".data

/-- The module-level `framework` template (source lines 15-51); it contains
exactly one occurrence of the placeholder `__CONTENT__`. -/
def framework : Str := fwPre ++ contentToken ++ fwPost

def emptyBlock : Str := "\n  <table border=\"0\" cellpadding=\"0\" cellspacing=\"0\" width=\"100%\" style=\"font-family: Arial, sans-serif; border: 1px solid #ddd; border-radius: 8px; padding: 16px; background-color: #f9f9f9;\">\n  <tr>\n    <td style=\"font-size: 20px; font-weight: bold; color: #333;\">\n        No Papers Today. Take a Rest!\n    </td>\n  </tr>\n  </table>\n  ".data

/-- Embeds `get_empty_html` (source lines 53-63). -/
def get_empty_html : Str := emptyBlock

def sumSeg1 : Str := "\n  <table border=\"0\" cellpadding=\"0\" cellspacing=\"0\" width=\"100%\" style=\"font-family: Arial, sans-serif; border: 2px solid #4CAF50; border-radius: 8px; padding: 20px; background-color: #f0f8f0; margin-bottom: 20px;\">\n  <tr>\n    <td style=\"font-size: 22px; font-weight: bold; color: #2E7D32; margin-bottom: 12px;\">\n        📊 Daily Summary | 每日总结\n    </td>\n  </tr>\n  <tr>\n    <td style=\"font-size: 15px; color: #333; padding: 12px 0; line-height: 1.6;\">\n        <strong>EN:</strong> ".data

def sumSeg2 : Str := "\n    </td>\n  </tr>\n  <tr>\n    <td style=\"font-size: 15px; color: #333; padding: 12px 0; line-height: 1.6;\">\n        <strong>ZH:</strong> ".data

def sumSeg3 : Str := "\n    </td>\n  </tr>\n  </table>\n  ".data

/-- Embeds `get_summary_html` (source lines 65-86): the summary template with the
two fields substituted. -/
def get_summary_html (summary_en summary_zh : Str) : Str :=
  sumSeg1 ++ summary_en ++ sumSeg2 ++ summary_zh ++ sumSeg3

def blkSeg0 : Str := "\n    <table border=\"0\" cellpadding=\"0\" cellspacing=\"0\" width=\"100%\" style=\"font-family: Arial, sans-serif; border: 1px solid #ddd; border-radius: 8px; padding: 16px; background-color: #f9f9f9;\">\n    <tr>\n        <td style=\"font-size: 20px; font-weight: bold; color: #333;\">\n            ".data

def blkSeg1 : Str := "\n        </td>\n    </tr>\n    <tr>\n        <td style=\"font-size: 14px; color: #666; padding: 8px 0;\">\n            ".data

def blkSeg2 : Str := "\n            <br>\n            <i>".data

def blkSeg3 : Str := "</i>\n        </td>\n    </tr>\n    <tr>\n        <td style=\"font-size: 14px; color: #333; padding: 8px 0;\">\n            <strong>Relevance:</strong> ".data

def blkSeg4 : Str := "\n        </td>\n    </tr>\n    <tr>\n        <td style=\"font-size: 14px; color: #333; padding: 8px 0;\">\n            <strong>arXiv ID:</strong> <a href=\"https://arxiv.org/abs/".data

def blkSeg5 : Str := "\" target=\"_blank\">".data

def blkSeg6 : Str := "</a>\n        </td>\n    </tr>\n    <tr>\n        <td style=\"font-size: 14px; color: #333; padding: 8px 0; line-height: 1.6;\">\n            <strong>TLDR:</strong><br>".data

def blkSeg7 : Str := "\n        </td>\n    </tr>\n\n    <tr>\n        <td style=\"padding: 8px 0;\">\n            <a href=\"".data

def blkSeg8 : Str := "\" style=\"display: inline-block; text-decoration: none; font-size: 14px; font-weight: bold; color: #fff; background-color: #d9534f; padding: 8px 16px; border-radius: 4px;\">PDF</a>\n            ".data

def blkSeg9 : Str := "\n        </td>\n    </tr>\n</table>\n".data

def codeSeg1 : Str := "<a href=\"".data

def codeSeg2 : Str := "\" style=\"display: inline-block; text-decoration: none; font-size: 14px; font-weight: bold; color: #fff; background-color: #5bc0de; padding: 8px 16px; border-radius: 4px; margin-left: 8px;\">Code</a>".data

def tldrSeg1 : Str := "<strong>EN:</strong> ".data

def tldrSeg2 : Str := "<br><strong>ZH:</strong> ".data

def full_star : Str := "<span class=\"full-star\">⭐</span>".data

def half_star : Str := "<span class=\"half-star\">⭐</span>".data

def starWrapOpen : Str := "<div class=\"star-wrapper\">".data

def starWrapClose : Str := "</div>".data

/-! ### Data model -/

/-- The abstract/TLDR value passed to `get_block_html`: either a plain string
(legacy) or a bilingual dict whose `"en"`/`"zh"` keys may each be absent
(source line 92 branches on `isinstance(abstract, dict)`, and uses
`abstract.get("en", "")` / `abstract.get("zh", "")`). -/
inductive Tldr where
  | str (s : Str)
  | dict (en zh : Option Str)
deriving DecidableEq

/-- An author object; `render_email` only reads `.name`. -/
structure Author where
  name : Str
deriving DecidableEq

/-- The fields of an `ArxivPaper` that `construct_email.py` reads. -/
structure ArxivPaper where
  title : Str
  summary : Str
  score : ℚ
  authors : List Author
  affiliations : Option (List Str)
  arxiv_id : Str
  tldr : Tldr
  pdf_url : Str
  code_url : Option Str
deriving DecidableEq

/-- The bilingual daily-summary dictionary `\x7b"en": ..., "zh": ...\x7d`. -/
structure Summary where
  en : Str
  zh : Str
deriving DecidableEq

/-! ### `get_block_html` and `get_stars` -/

/-- The `tldr_html` value computed at source lines 92-95: a dict renders as an
EN line and a ZH line with `.get(key, "")` defaults; a plain string is used
unchanged. -/
def buildTldrHtml : Tldr → Str
  | .dict en zh => tldrSeg1 ++ en.getD [] ++ tldrSeg2 ++ zh.getD []
  | .str s => s

/-- Embeds `get_block_html` (source lines 88-135).  The `code` link is emitted only
when `code_url` is truthy (not `None` and not the empty string). -/
def get_block_html (title authors rate arxiv_id : Str) (abstract : Tldr)
    (pdf_url : Str) (code_url : Option Str) (affiliations : Str) : Str :=
  let code : Str := match code_url with
    | none => []
    | some u => if u = [] then [] else codeSeg1 ++ u ++ codeSeg2
  let tldr_html := buildTldrHtml abstract
  blkSeg0 ++ title ++ blkSeg1 ++ authors ++ blkSeg2 ++ affiliations ++ blkSeg3
    ++ rate ++ blkSeg4 ++ arxiv_id ++ blkSeg5 ++ arxiv_id ++ blkSeg6
    ++ tldr_html ++ blkSeg7 ++ pdf_url ++ blkSeg8 ++ code ++ blkSeg9

/-- Embeds `get_stars` (source lines 137-151).  Here `low = 6`, `high = 8`,
`interval = (high-low)/10`; `star_num = ceil((score-low)/interval)` is a
positive int in the middle branch, `int(star_num/2)` truncates toward zero,
which for positive values is natural division. -/
def get_stars (score : ℚ) : Str :=
  if score ≤ 6 then []
  else if 8 ≤ score then strRep full_star 5
  else
    let interval : ℚ := (8 - 6) / 10
    let star_num : ℕ := (⌈(score - 6) / interval⌉).toNat
    let full_star_num : ℕ := star_num / 2
    let half_star_num : ℕ := star_num - full_star_num * 2
    starWrapOpen ++ strRep full_star full_star_num ++ strRep half_star half_star_num
      ++ starWrapClose

/-! ### The daily-summary parser (source lines 199-217)

`generate_daily_summary` parses the LLM response with
`re.search(r'EN:\s*(.+?)(?=\nZH:|$)', text, re.DOTALL)` and
`re.search(r'ZH:\s*(.+?)$', text, re.DOTALL)`.

The regex semantics are embedded literally:
* `re.search` scans for the first position at which the whole pattern
  matches (`reSearch`);
* `\s*` is greedy with backtracking (`matchFrom` tries the longest
  whitespace prefix first, then shorter ones);
* `(.+?)` is a lazy one-or-more capture: it extends one character at a
  time until the trailing context holds (`lazyCap`);
* with `re.DOTALL` and no `re.MULTILINE`, `$` matches at the end of the
  string and just before a final newline (`dollarLook`); the lookahead
  `(?=\nZH:|$)` additionally accepts a following `"\nZH:"` (`enLook`). -/

def enMarker : Str := "EN:".data

def zhMarker : Str := "ZH:".data

def nzhMarker : Str := "\nZH:".data

/-- The trailing context `$` of the ZH pattern, applied to the suffix that
remains after the capture. -/
def dollarLook (suffix : Str) : Bool :=
  suffix.isEmpty || suffix == ['\n']

/-- The lookahead `(?=\nZH:|$)` of the EN pattern. -/
def enLook (suffix : Str) : Bool :=
  nzhMarker.isPrefixOf suffix || suffix.isEmpty || suffix == ['\n']

/-- Lazy capture `(.+?)` followed by the trailing context `look`: consume one
character, stop as soon as `look` holds on the remaining suffix, otherwise
extend.  Fails on the empty string (the capture needs at least one char). -/
def lazyCap (look : Str → Bool) : Str → Option Str
  | [] => none
  | c :: rest => if look rest then some [c] else (lazyCap look rest).map (c :: ·)

/-- The amounts of whitespace `\s*` can consume at the start of `t`, in the
greedy backtracking order (longest first). -/
def wCandidates (t : Str) : List ℕ :=
  (List.range ((t.takeWhile pyIsSpace).length + 1)).reverse

/-- Match `\s*(.+?)(?=look)` at the start of `t`: try each whitespace
consumption in backtracking order and take the first successful capture. -/
def matchFrom (look : Str → Bool) (t : Str) : Option Str :=
  (wCandidates t).findSome? (fun w => lazyCap look (t.drop w))

/-- Embeds `re.search` for the patterns at hand: find the first position whose
(non-empty) literal marker is followed by a successful `\s*(.+?)...` match,
and return that capture group. -/
def reSearch (m : Str) (look : Str → Bool) : Str → Option Str
  | [] => none
  | c :: rest =>
    if m.isPrefixOf (c :: rest) then
      match matchFrom look ((c :: rest).drop m.length) with
      | some cap => some cap
      | none => reSearch m look rest
    else
      reSearch m look rest

/-- The response parser of `generate_daily_summary` (source lines 200-213):
run both regex searches, strip the captures, and if both results are empty
fall back to the stripped raw response for both fields. -/
def parseDaily (summary_text : Str) : Summary :=
  let en := pyStrip ((reSearch enMarker enLook summary_text).getD [])
  let zh := pyStrip ((reSearch zhMarker dollarLook summary_text).getD [])
  if en = [] ∧ zh = [] then ⟨pyStrip summary_text, pyStrip summary_text⟩
  else ⟨en, zh⟩

/-! ### `generate_daily_summary` (source lines 154-219)

The LLM call `llm.generate(...)` (line 189) sits OUTSIDE the `try` block;
only the response parsing (lines 201-217) is guarded.  The LLM outcome is an
oracle input `llmResult`; `parserRaises` is an oracle for an exception inside
the guarded parsing block (the `except` clause overwrites both fields with
the stripped raw response).  The prompt construction and tiktoken truncation
(lines 161-186) only feed the abstracted LLM call and are not observable.
Output: `(result-or-exception, number of LLM calls, log messages)`. -/

def infoLogMsg : Str := "Generating daily summary...".data

def parseWarnMsg : Str := "Failed to parse daily summary".data

def generate_daily_summary (papers : List ArxivPaper) (llmResult : Except Str Str)
    (parserRaises : Bool) : Except Str Summary × ℕ × List Str :=
  if papers = [] then
    (.ok ⟨"No papers today.".data, "今日无论文。".data⟩, 0, [])
  else
    match llmResult with
    | .error e => (.error e, 1, [infoLogMsg])
    | .ok summary_text =>
      if parserRaises then
        (.ok ⟨pyStrip summary_text, pyStrip summary_text⟩, 1, [infoLogMsg, parseWarnMsg])
      else
        (.ok (parseDaily summary_text), 1, [infoLogMsg])

/-! ### `render_email` (source lines 222-251) -/

/-- The author-string formatting inlined at source lines 233-239. -/
def formatAuthors (author_list : List Str) : Str :=
  if author_list.length ≤ 5 then
    List.intercalate ", ".data author_list
  else
    List.intercalate ", ".data
      (author_list.take 3 ++ ["...".data] ++ author_list.drop (author_list.length - 2))

/-- The affiliation-string formatting inlined at source lines 240-246. -/
def formatAffiliations : Option (List Str) → Str
  | none => "Unknown Affiliation".data
  | some affs =>
    List.intercalate ", ".data (affs.take 5)
      ++ (if 5 < affs.length then ", ...".data else [])

/-- One paper's HTML block as built in the loop body (source lines 231-247). -/
def paperBlock (p : ArxivPaper) : Str :=
  get_block_html p.title (formatAuthors (p.authors.map (·.name))) (get_stars p.score)
    p.arxiv_id p.tldr p.pdf_url p.code_url (formatAffiliations p.affiliations)

/-- Embeds `render_email` (source lines 222-251).  Output: the rendered document (or
the propagated exception) and the number of LLM calls performed.
`render_email` never touches SMTP (sending lives in the separate
`send_email`), and `time.sleep(10)` has no observable effect. -/
def render_email (papers : List ArxivPaper) (llmResult : Except Str Str)
    (parserRaises : Bool) : Except Str Str × ℕ :=
  if papers = [] then
    (.ok (pyReplace contentToken get_empty_html framework), 0)
  else
    let gds := generate_daily_summary papers llmResult parserRaises
    match gds.1 with
    | .error e => (.error e, gds.2.1)
    | .ok daily_summary =>
      let summary_html := get_summary_html daily_summary.en daily_summary.zh
      let parts := papers.map paperBlock
      let content := summary_html ++ "<br>".data
        ++ List.intercalate "</br><br>".data parts ++ "</br>".data
      (.ok (pyReplace contentToken content framework), gds.2.1)

/-! ### `send_email` (source lines 253-274)

The SMTP session is an external collaborator; `SmtpEnv` is an oracle saying
which of the five calls (`SMTP()`, `starttls()`, `SMTP_SSL()`, `login()`,
`sendmail()`, `quit()`) would raise.  The model returns the trace of
attempted calls, the warning log, and the outcome.  MIME-header construction
(lines 254-262) is pure string assembly with no bearing on the claims. -/

inductive SmtpEv where
  | connect
  | starttls
  | connectSSL
  | login
  | sendmail (from_addr : Str) (rcpts : List Str)
  | quit
deriving DecidableEq

structure SmtpEnv where
  connectRaises : Bool
  starttlsRaises : Bool
  sslRaises : Bool
  loginRaises : Bool
  sendRaises : Bool
  quitRaises : Bool
deriving DecidableEq

def tlsWarn1 : Str := "Failed to use TLS.".data

def tlsWarn2 : Str := "Try to use SSL.".data

/-- The straight-line tail of `send_email` after a transport is established
(source lines 272-274): `login`, `sendmail(sender, [receiver], ...)`, `quit`,
each uncaught on failure. -/
def afterTransport (env : SmtpEnv) (sender receiver : Str) (trace : List SmtpEv)
    (logs : List Str) : List SmtpEv × List Str × Except Str Unit :=
  let trace := trace ++ [.login]
  if env.loginRaises then (trace, logs, .error "login failed".data)
  else
    let trace := trace ++ [.sendmail sender [receiver]]
    if env.sendRaises then (trace, logs, .error "sendmail failed".data)
    else
      let trace := trace ++ [.quit]
      if env.quitRaises then (trace, logs, .error "quit failed".data)
      else (trace, logs, .ok ())

/-- Embeds `send_email` (source lines 253-274): try `SMTP()` + `starttls()`; on any
exception in that block, log two warnings and fall back to one `SMTP_SSL()`
attempt; afterwards `login`/`sendmail`/`quit` with no further handling. -/
def send_email (env : SmtpEnv) (sender receiver : Str) : List SmtpEv × List Str × Except Str Unit :=
  let preTrace : List SmtpEv := if env.connectRaises then [.connect] else [.connect, .starttls]
  if env.connectRaises || env.starttlsRaises then
    let trace := preTrace ++ [.connectSSL]
    if env.sslRaises then (trace, [tlsWarn1, tlsWarn2], .error "SSL connect failed".data)
    else afterTransport env sender receiver trace [tlsWarn1, tlsWarn2]
  else
    afterTransport env sender receiver preTrace []

/-! ### Spec-side definitions

The definitions below are worded from the specification text (for refinement
comparisons); they are not translations of the source. -/

/-- Substring relation on modelled strings: `a` occurs verbatim inside `b`. -/
def SubStr (a b : Str) : Prop := ∃ x y, b = x ++ a ++ y

/-- Everything after the first occurrence of marker `m`, if `m` occurs. -/
def afterFirst (m : Str) : Str → Option Str
  | [] => none
  | c :: rest =>
    if m.isPrefixOf (c :: rest) then some ((c :: rest).drop m.length)
    else afterFirst m rest

/-- Everything up to (excluding) the first occurrence of marker `m`, or the
whole string when `m` does not occur. -/
def takeUntil (m : Str) : Str → Str
  | [] => []
  | c :: rest => if m.isPrefixOf (c :: rest) then [] else c :: takeUntil m rest

/-- Amended spec wording of the EN capture: everything after the first `EN:`,
with the whitespace right after the marker skipped, up to a newline-preceded
`ZH:` marker (the substring `"\nZH:"`) or to the end of the string, stripped. -/
def specParseEn (s : Str) : Str :=
  match afterFirst enMarker s with
  | none => []
  | some t =>
    let r := t.dropWhile pyIsSpace
    if r = [] then [] else pyStrip (takeUntil nzhMarker r)

/-- Amended spec wording of the ZH capture: everything after the first `ZH:`
to the end of the string, stripped. -/
def specParseZh (s : Str) : Str :=
  match afterFirst zhMarker s with
  | none => []
  | some t => pyStrip t

/-- Amended spec wording of the whole response parser, including the
both-empty fallback to the stripped raw response. -/
def specParseAmended (s : Str) : Summary :=
  let en := specParseEn s
  let zh := specParseZh s
  if en = [] ∧ zh = [] then ⟨pyStrip s, pyStrip s⟩ else ⟨en, zh⟩

/-- The star-step count named by the spec: `ceil((score - 6) / 0.2)`. -/
def starStep (score : ℚ) : ℕ := (⌈(score - 6) / (1 / 5 : ℚ)⌉).toNat

/-- A concrete sample paper, used in counterexamples and witnesses. -/
def samplePaper : ArxivPaper :=
  { title := "T".data
    summary := "S".data
    score := 7
    authors := [⟨"A".data⟩]
    affiliations := none
    arxiv_id := "1234.5678".data
    tldr := .str "tl".data
    pdf_url := "http://p".data
    code_url := none }

/-- The document that `render_email` is expected to produce for an empty paper
list: the framework with the placeholder replaced by the "No Papers Today"
block (written out literally). -/
def c4Expected : Str := "\n<!DOCTYPE HTML>\n<html>\n<head>\n  <style>\n    .star-wrapper \x7b\n      font-size: 1.3em; /* 调整星星大小 */\n      line-height: 1; /* 确保垂直对齐 */\n      display: inline-flex;\n      align-items: center; /* 保持对齐 */\n    \x7d\n    .half-star \x7b\n      display: inline-block;\n      width: 0.5em; /* 半颗星的宽度 */\n      overflow: hidden;\n      white-space: nowrap;\n      vertical-align: middle;\n    \x7d\n    .full-star \x7b\n      vertical-align: middle;\n    \x7d\n  </style>\n</head>\n<body>\n\n<div>\n    \n  <table border=\"0\" cellpadding=\"0\" cellspacing=\"0\" width=\"100%\" style=\"font-family: Arial, sans-serif; border: 1px solid #ddd; border-radius: 8px; padding: 16px; background-color: #f9f9f9;\">\n  <tr>\n    <td style=\"font-size: 20px; font-weight: bold; color: #333;\">\n        No Papers Today. Take a Rest!\n    </td>\n  </tr>\n  </table>\n  \n</div>\n\n<br><br>\n<div>\nTo unsubscribe, remove your email in your Github Action setting.\n</div>\n\n</body>\n</html>\n".data

/-! ## Helper lemmas -/

lemma pyReplaceAux_skip (pat repl : Str) :
    ∀ (x b : Str), pyReplaceAux pat repl x.length (x ++ b) = pyReplaceAux pat repl 0 b := by
  intro x
  induction x with
  | nil => intro b; rfl
  | cons c cs ih => intro b; exact ih b

lemma isPrefixOf_self_append (l t : Str) : l.isPrefixOf (l ++ t) = true :=
  List.isPrefixOf_iff_prefix.mpr (List.prefix_append l t)

lemma isPrefixOf_restrict {pat u b : Str} (hlen : pat.length ≤ u.length)
    (h : pat.isPrefixOf (u ++ b) = true) : pat.isPrefixOf u = true := by
  rw [List.isPrefixOf_iff_prefix] at h ⊢
  have h1 : pat = (u ++ b).take pat.length := by
    obtain ⟨t, ht⟩ := h
    rw [← ht, List.take_left]
  have h2 : (u ++ b).take pat.length = u.take pat.length := by
    rw [List.take_append_eq_append_take, Nat.sub_eq_zero_of_le hlen, List.take_zero,
      List.append_nil]
  rw [h1, h2]
  exact List.take_prefix _ _

lemma pyReplace_append_pat (pat repl : Str) (hpat : pat ≠ []) :
    ∀ (a b : Str), (∀ i, i < a.length → ¬ (pat.isPrefixOf ((a ++ pat).drop i) = true)) →
    pyReplace pat repl (a ++ pat ++ b) = a ++ (repl ++ pyReplace pat repl b) := by
  intro a
  induction a with
  | nil =>
    intro b _
    obtain ⟨p, pat', hp⟩ : ∃ p pat', pat = p :: pat' := by
      cases pat with
      | nil => exact absurd rfl hpat
      | cons p pat' => exact ⟨p, pat', rfl⟩
    subst hp
    show pyReplaceAux _ _ 0 (p :: (pat' ++ b)) = _
    rw [pyReplaceAux, if_pos ⟨hpat, isPrefixOf_self_append (p :: pat') b⟩]
    have hskip : pyReplaceAux (p :: pat') repl ((p :: pat').length - 1) (pat' ++ b)
        = pyReplaceAux (p :: pat') repl 0 b := by
      simpa using pyReplaceAux_skip (p :: pat') repl pat' b
    rw [hskip]
    rfl
  | cons c a' ih =>
    intro b ha
    have h0 : ¬ (pat.isPrefixOf ((c :: a') ++ pat ++ b) = true) := by
      intro hcontra
      apply ha 0 (by simp)
      simp only [List.drop_zero]
      refine isPrefixOf_restrict ?_ (by simpa [List.append_assoc] using hcontra)
      simp
      omega
    show pyReplaceAux _ _ 0 (c :: (a' ++ pat ++ b)) = _
    rw [pyReplaceAux, if_neg (fun hand => h0 (by simpa using hand.2))]
    have ha' : ∀ i, i < a'.length → ¬ (pat.isPrefixOf ((a' ++ pat).drop i) = true) := by
      intro i hi
      have := ha (i + 1) (by simp; omega)
      simpa [List.drop_succ_cons] using this
    have := ih b ha'
    rw [pyReplace] at this
    simp only [List.cons_append, List.append_assoc] at this ⊢
    rw [this]

lemma pyReplace_no_occ (pat repl : Str) :
    ∀ (s : Str), (∀ i, i < s.length → ¬ (pat.isPrefixOf (s.drop i) = true)) →
    pyReplace pat repl s = s := by
  intro s
  induction s with
  | nil => intro _; rfl
  | cons c rest ih =>
    intro h
    show pyReplaceAux _ _ 0 (c :: rest) = _
    rw [pyReplaceAux, if_neg (fun hand => h 0 (by simp) (by simpa using hand.2))]
    have := ih (fun i hi => by simpa [List.drop_succ_cons] using h (i + 1) (by simp; omega))
    rw [pyReplace] at this
    rw [this]

lemma fwPre_no_early :
    ∀ i, i < fwPre.length → ¬ (contentToken.isPrefixOf ((fwPre ++ contentToken).drop i) = true) := by
  decide

lemma fwPost_no_occ :
    ∀ i, i < fwPost.length → ¬ (contentToken.isPrefixOf (fwPost.drop i) = true) := by
  decide

/-- Replacing `__CONTENT__` in the framework splices the replacement between
the two literal halves (the placeholder occurs exactly once). -/
lemma pyReplace_framework (x : Str) :
    pyReplace contentToken x framework = fwPre ++ (x ++ fwPost) := by
  have h1 := pyReplace_append_pat contentToken x (by decide) fwPre fwPost fwPre_no_early
  rw [show framework = fwPre ++ contentToken ++ fwPost from rfl, h1,
    pyReplace_no_occ contentToken x fwPost fwPost_no_occ]

lemma SubStr_append_left {a m : Str} (w : Str) (h : SubStr a m) : SubStr a (w ++ m) := by
  obtain ⟨x, y, hxy⟩ := h
  exact ⟨w ++ x, y, by simp [hxy, List.append_assoc]⟩

lemma SubStr_append_right {a m : Str} (w : Str) (h : SubStr a m) : SubStr a (m ++ w) := by
  obtain ⟨x, y, hxy⟩ := h
  exact ⟨x, y ++ w, by simp [hxy, List.append_assoc]⟩

lemma SubStr_intercalate (sep : Str) :
    ∀ (xs : List Str) (a : Str), a ∈ xs → SubStr a (List.intercalate sep xs) := by
  intro xs
  induction xs with
  | nil => intro a ha; exact absurd ha (List.not_mem_nil a)
  | cons x rest ih =>
    intro a ha
    cases rest with
    | nil =>
      have hax : a = x := by simpa using ha
      subst hax
      exact ⟨[], [], by simp [List.intercalate]⟩
    | cons r rs =>
      have hexp : List.intercalate sep (x :: r :: rs) = x ++ (sep ++ List.intercalate sep (r :: rs)) := by
        simp [List.intercalate, List.intersperse_cons_cons, List.append_assoc]
      rw [hexp]
      rcases List.mem_cons.mp ha with hax | har
      · subst hax
        exact ⟨[], sep ++ List.intercalate sep (r :: rs), by simp⟩
      · exact SubStr_append_left x (SubStr_append_left sep (ih a har))

/-! ## Claim theorems -/

/-- C4: for the empty paper list, `render_email` returns exactly the outer
HTML framework with its content placeholder replaced by the fixed "No Papers
Today" block, performs no language-model call (LLM call count 0), and no SMTP
interaction (`render_email` contains no SMTP operation at all; dispatch lives
in the separate `send_email`). -/
theorem c4_render_empty : ∀ (llmResult : Except Str Str) (pf : Bool),
    render_email [] llmResult pf = (.ok c4Expected, 0) := by
  intro llm pf
  rw [render_email, if_pos rfl, pyReplace_framework]
  have h : fwPre ++ (get_empty_html ++ fwPost) = c4Expected := by decide
  rw [h]

/-- C6: `generate_daily_summary` applied to the empty paper list returns
exactly the static placeholder pair and performs no LLM call (call count 0,
no log output either). -/
theorem c6_gds_empty : ∀ (llmResult : Except Str Str) (pf : Bool),
    generate_daily_summary [] llmResult pf =
      (.ok ⟨"No papers today.".data, "今日无论文。".data⟩, 0, []) := by
  intro llm pf
  rfl

/-- C1 counterexample: an exception raised by the LLM call propagates out of
`generate_daily_summary` (and aborts `render_email`), because the `try` block
only guards the response parsing; so the claim that no exception from the LLM
call ever propagates is false. -/
theorem c1_cex :
    (generate_daily_summary [samplePaper] (.error "boom".data) false).1 = .error "boom".data ∧
    (render_email [samplePaper] (.error "boom".data) false).1 = .error "boom".data := by
  constructor <;> rfl

/-- C1 (amended): for every non-empty paper list, an exception raised by the
response parser inside `generate_daily_summary` is caught and logged and the
function returns the fallback summary (both fields the stripped raw
response); an exception raised by the LLM call itself propagates out
uncaught. -/
theorem c1_parser_caught_llm_propagates :
    ∀ (papers : List ArxivPaper) (s e : Str) (pf : Bool), papers ≠ [] →
    (generate_daily_summary papers (.ok s) true).1 = .ok ⟨pyStrip s, pyStrip s⟩ ∧
    (generate_daily_summary papers (.ok s) true).2.2 = [infoLogMsg, parseWarnMsg] ∧
    (generate_daily_summary papers (.error e) pf).1 = .error e := by
  intro papers s e pf hne
  refine ⟨?_, ?_, ?_⟩ <;> simp [generate_daily_summary, hne]

/-- C1 witness: the amended theorem instantiated at a concrete paper list,
response, and exception. -/
theorem c1_witness :
    (generate_daily_summary [samplePaper] (.ok " raw ".data) true).1
      = .ok ⟨pyStrip " raw ".data, pyStrip " raw ".data⟩ ∧
    (generate_daily_summary [samplePaper] (.ok " raw ".data) true).2.2
      = [infoLogMsg, parseWarnMsg] ∧
    (generate_daily_summary [samplePaper] (.error "x".data) false).1 = .error "x".data :=
  c1_parser_caught_llm_propagates [samplePaper] " raw ".data "x".data false (by simp)

/-- C10: a bilingual TLDR dict with a missing `"en"` or `"zh"` key renders
with the empty string in the corresponding EN/ZH slot of the TLDR line (no
error is possible: the embedding is total, mirroring `dict.get(key, "")`);
a plain-string abstract is inserted unchanged; and the rendered block embeds
the TLDR text verbatim. -/
theorem c10_tldr_dict :
    ∀ (title authors rate arxiv_id pdf_url affiliations : Str) (code_url : Option Str)
      (e z : Option Str) (s : Str) (abstract : Tldr),
    buildTldrHtml (.dict none z) = tldrSeg1 ++ ([] : Str) ++ tldrSeg2 ++ z.getD [] ∧
    buildTldrHtml (.dict e none) = tldrSeg1 ++ e.getD [] ++ tldrSeg2 ++ ([] : Str) ∧
    buildTldrHtml (.str s) = s ∧
    SubStr (buildTldrHtml abstract)
      (get_block_html title authors rate arxiv_id abstract pdf_url code_url affiliations) := by
  intro title authors rate arxiv_id pdf_url affiliations code_url e z s abstract
  refine ⟨by simp [buildTldrHtml], by simp [buildTldrHtml], rfl, ?_⟩
  refine ⟨blkSeg0 ++ title ++ blkSeg1 ++ authors ++ blkSeg2 ++ affiliations ++ blkSeg3
    ++ rate ++ blkSeg4 ++ arxiv_id ++ blkSeg5 ++ arxiv_id ++ blkSeg6,
    blkSeg7 ++ pdf_url ++ blkSeg8
      ++ (match code_url with
          | none => ([] : Str)
          | some u => if u = [] then [] else codeSeg1 ++ u ++ codeSeg2) ++ blkSeg9, ?_⟩
  simp [get_block_html, List.append_assoc]

/-- C8: the rendered author string joins all names with `", "` when there are
at most 5 authors; otherwise it is the first 3 names, an ellipsis marker, and
the last 2 names, joined with `", "`; in particular 6 authors A..F render as
`"A, B, C, ..., E, F"`. -/
theorem c8_authors_spec :
    ∀ (author_list : List Str),
    (author_list.length ≤ 5 →
      formatAuthors author_list = List.intercalate ", ".data author_list) ∧
    (5 < author_list.length →
      formatAuthors author_list = List.intercalate ", ".data
        (author_list.take 3 ++ ["...".data] ++ (author_list.reverse.take 2).reverse)) ∧
    formatAuthors ["A".data, "B".data, "C".data, "D".data, "E".data, "F".data]
      = "A, B, C, ..., E, F".data := by
  intro l
  refine ⟨?_, ?_, by decide⟩
  · intro h
    rw [formatAuthors, if_pos h]
  · intro h
    rw [formatAuthors, if_neg (by omega), List.take_reverse, List.reverse_reverse]

/-- C8 witness: the two branches of the author-format theorem instantiated at
a 2-author and a 6-author list. -/
theorem c8_witness :
    formatAuthors ["A".data, "B".data] = List.intercalate ", ".data ["A".data, "B".data] ∧
    formatAuthors ["A".data, "B".data, "C".data, "D".data, "E".data, "F".data]
      = List.intercalate ", ".data
        ((["A".data, "B".data, "C".data, "D".data, "E".data, "F".data] : List Str).take 3
          ++ ["...".data]
          ++ ((["A".data, "B".data, "C".data, "D".data, "E".data, "F".data] : List Str).reverse.take 2).reverse) :=
  ⟨(c8_authors_spec ["A".data, "B".data]).1 (by decide),
   (c8_authors_spec ["A".data, "B".data, "C".data, "D".data, "E".data, "F".data]).2.1 (by decide)⟩

/-- C9: the rendered affiliation string is the first 5 affiliations joined
with `", "`, with a trailing `", ..."` exactly when there are more than 5;
absent affiliations (`None`) render as the fixed placeholder. -/
theorem c9_affils_spec :
    ∀ (affs : List Str),
    formatAffiliations none = "Unknown Affiliation".data ∧
    formatAffiliations (some affs)
      = List.intercalate ", ".data (affs.take 5)
        ++ (if 5 < affs.length then ", ...".data else []) ∧
    (affs.length ≤ 5 → formatAffiliations (some affs) = List.intercalate ", ".data affs) := by
  intro affs
  refine ⟨rfl, rfl, ?_⟩
  intro h
  show List.intercalate ", ".data (affs.take 5) ++ _ = _
  rw [if_neg (by omega), List.take_of_length_le h, List.append_nil]

/-- C9 witness: the affiliation-format theorem instantiated at `None`, a
6-element list (truncated with ellipsis), and a 1-element list. -/
theorem c9_witness :
    formatAffiliations none = "Unknown Affiliation".data ∧
    formatAffiliations (some ["a".data, "b".data, "c".data, "d".data, "e".data, "f".data])
      = List.intercalate ", ".data
          ((["a".data, "b".data, "c".data, "d".data, "e".data, "f".data] : List Str).take 5)
        ++ (if 5 < (["a".data, "b".data, "c".data, "d".data, "e".data, "f".data] : List Str).length
            then ", ...".data else []) ∧
    formatAffiliations (some ["a".data]) = List.intercalate ", ".data ["a".data] :=
  ⟨(c9_affils_spec []).1,
   (c9_affils_spec ["a".data, "b".data, "c".data, "d".data, "e".data, "f".data]).2.1,
   (c9_affils_spec ["a".data]).2.2 (by decide)⟩

/-- C2: `get_stars` emits the empty string for `score <= 6`; exactly 5
full-star glyphs and no half-star glyph for `score >= 8`; and for
`6 < score < 8`, with `step = ceil((score-6)/0.2)`, it emits `step / 2`
full-star glyphs followed by `step % 2` half-star glyphs inside the wrapper
(so `full*2 + half = step` and the half count is 0 or 1). -/
theorem c2_stars_spec :
    ∀ (score : ℚ),
    (score ≤ 6 → get_stars score = []) ∧
    (8 ≤ score →
      get_stars score = strRep full_star 5 ∧
      occCount full_star (get_stars score) = 5 ∧
      occCount half_star (get_stars score) = 0) ∧
    (6 < score → score < 8 →
      get_stars score = starWrapOpen ++ strRep full_star (starStep score / 2)
        ++ strRep half_star (starStep score % 2) ++ starWrapClose ∧
      starStep score / 2 * 2 + starStep score % 2 = starStep score ∧
      starStep score % 2 ≤ 1) := by
  intro score
  refine ⟨?_, ?_, ?_⟩
  · intro h
    rw [get_stars, if_pos h]
  · intro h
    have h6 : ¬ score ≤ 6 := by linarith
    have heq : get_stars score = strRep full_star 5 := by rw [get_stars, if_neg h6, if_pos h]
    exact ⟨heq, by rw [heq]; decide, by rw [heq]; decide⟩
  · intro h1 h2
    have h6 : ¬ score ≤ 6 := by linarith
    have h8 : ¬ 8 ≤ score := by linarith
    have hstep : (⌈(score - 6) / (((8 : ℚ) - 6) / 10)⌉).toNat = starStep score := by
      rw [starStep]
      norm_num
    have hmod : starStep score - starStep score / 2 * 2 = starStep score % 2 := by omega
    refine ⟨?_, by omega, by omega⟩
    rw [get_stars, if_neg h6, if_neg h8]
    dsimp only
    rw [hstep, hmod]

/-- C2 witness: the three branches of the star theorem instantiated at
scores 5, 9, and 7. -/
theorem c2_witness :
    get_stars 5 = [] ∧
    get_stars 9 = strRep full_star 5 ∧
    occCount full_star (get_stars 9) = 5 ∧
    occCount half_star (get_stars 9) = 0 ∧
    get_stars 7 = starWrapOpen ++ strRep full_star (starStep 7 / 2)
      ++ strRep half_star (starStep 7 % 2) ++ starWrapClose := by
  have h5 := (c2_stars_spec 5).1 (by norm_num)
  have h9 := (c2_stars_spec 9).2.1 (by norm_num)
  have h7 := (c2_stars_spec 7).2.2 (by norm_num) (by norm_num)
  exact ⟨h5, h9.1, h9.2.1, h9.2.2, h7.1⟩

/-- C3: if the initial connection + STARTTLS block raises, `send_email` logs
warnings and makes exactly one SSL fallback attempt (none when the block
succeeds); once a transport is established `login` is attempted exactly once;
on the success path `login`/`sendmail`/`quit` each happen exactly once and
every `sendmail` goes to exactly the one receiver address; and any failure
after the single fallback (SSL connect, login, send, quit) propagates as an
error. -/
theorem c3_send_email_spec :
    ∀ (env : SmtpEnv) (sender receiver : Str),
    ((env.connectRaises || env.starttlsRaises) = true →
      (send_email env sender receiver).2.1 = [tlsWarn1, tlsWarn2] ∧
      (send_email env sender receiver).1.count .connectSSL = 1) ∧
    ((env.connectRaises || env.starttlsRaises) = false →
      (send_email env sender receiver).1.count .connectSSL = 0 ∧
      (send_email env sender receiver).2.1 = []) ∧
    (((env.connectRaises || env.starttlsRaises) = false ∨
        ((env.connectRaises || env.starttlsRaises) = true ∧ env.sslRaises = false)) →
      (send_email env sender receiver).1.count .login = 1) ∧
    ((send_email env sender receiver).2.2 = .ok () →
      (send_email env sender receiver).1.count .login = 1 ∧
      (send_email env sender receiver).1.count (.sendmail sender [receiver]) = 1 ∧
      (send_email env sender receiver).1.count .quit = 1 ∧
      ∀ f r, SmtpEv.sendmail f r ∈ (send_email env sender receiver).1 → r = [receiver]) ∧
    ((env.connectRaises || env.starttlsRaises) = true ∧ env.sslRaises = true →
      ∃ msg, (send_email env sender receiver).2.2 = .error msg) ∧
    (((env.connectRaises || env.starttlsRaises) = false ∨ env.sslRaises = false) ∧
        env.loginRaises = true →
      ∃ msg, (send_email env sender receiver).2.2 = .error msg) ∧
    (((env.connectRaises || env.starttlsRaises) = false ∨ env.sslRaises = false) ∧
        env.loginRaises = false ∧ env.sendRaises = true →
      ∃ msg, (send_email env sender receiver).2.2 = .error msg) ∧
    (((env.connectRaises || env.starttlsRaises) = false ∨ env.sslRaises = false) ∧
        env.loginRaises = false ∧ env.sendRaises = false ∧ env.quitRaises = true →
      ∃ msg, (send_email env sender receiver).2.2 = .error msg) := by
  intro env sender receiver
  obtain ⟨c, st, ssl, lg, sd, q⟩ := env
  cases c <;> cases st <;> cases ssl <;> cases lg <;> cases sd <;> cases q <;>
    simp [send_email, afterTransport, List.count_cons, List.count_nil, beq_iff_eq]

/-- C3 witness: the fallback path instantiated at a concrete environment
where only the initial connect raises: warnings logged, one SSL attempt, and
one `login`/`sendmail`/`quit` each. -/
theorem c3_witness :
    (send_email ⟨true, false, false, false, false, false⟩ "s".data "r".data).2.1
      = [tlsWarn1, tlsWarn2] ∧
    (send_email ⟨true, false, false, false, false, false⟩ "s".data "r".data).1.count .connectSSL = 1 ∧
    (send_email ⟨true, false, false, false, false, false⟩ "s".data "r".data).1.count .login = 1 ∧
    (send_email ⟨true, false, false, false, false, false⟩ "s".data "r".data).1.count
      (.sendmail "s".data ["r".data]) = 1 ∧
    (send_email ⟨true, false, false, false, false, false⟩ "s".data "r".data).1.count .quit = 1 := by
  have h := c3_send_email_spec ⟨true, false, false, false, false, false⟩ "s".data "r".data
  have h1 := h.1 rfl
  have h4 := h.2.2.2.1 rfl
  exact ⟨h1.1, h1.2, h4.1, h4.2.1, h4.2.2.1⟩

/-- C7: for every non-empty paper list, if the summary generator yields the
pair `(E, Z)` then the rendered email embeds the daily-summary block (which
contains `E` and `Z` verbatim), and that block precedes every per-paper
block in the output. -/
theorem c7_summary_first :
    ∀ (papers : List ArxivPaper) (llmResult : Except Str Str) (pf : Bool) (E Z : Str),
    papers ≠ [] →
    (generate_daily_summary papers llmResult pf).1 = .ok ⟨E, Z⟩ →
    ∃ pre post,
      (render_email papers llmResult pf).1 = .ok (pre ++ get_summary_html E Z ++ post) ∧
      SubStr E (get_summary_html E Z) ∧
      SubStr Z (get_summary_html E Z) ∧
      ∀ p ∈ papers, SubStr (paperBlock p) post := by
  intro papers llm pf E Z hne hok
  have hren : render_email papers llm pf
      = (.ok (pyReplace contentToken
          (get_summary_html E Z ++ "<br>".data
            ++ List.intercalate "</br><br>".data (papers.map paperBlock) ++ "</br>".data)
          framework), (generate_daily_summary papers llm pf).2.1) := by
    rw [render_email, if_neg hne]
    dsimp only
    rw [hok]
  rw [pyReplace_framework] at hren
  refine ⟨fwPre,
    "<br>".data ++ List.intercalate "</br><br>".data (papers.map paperBlock)
      ++ ("</br>".data ++ fwPost), ?_, ?_, ?_, ?_⟩
  · rw [hren]
    simp [List.append_assoc]
  · exact ⟨sumSeg1, sumSeg2 ++ Z ++ sumSeg3, by simp [get_summary_html, List.append_assoc]⟩
  · exact ⟨sumSeg1 ++ E ++ sumSeg2, sumSeg3, by simp [get_summary_html, List.append_assoc]⟩
  · intro p hp
    have hmem : paperBlock p ∈ papers.map paperBlock := List.mem_map_of_mem _ hp
    have hsub := SubStr_intercalate "</br><br>".data (papers.map paperBlock) _ hmem
    exact SubStr_append_right ("</br>".data ++ fwPost) (SubStr_append_left "<br>".data hsub)

/-- C7 witness: the theorem instantiated at one concrete paper and the
response `"EN: E\nZH: Z"`, whose parse is the pair `("E", "Z")`. -/
theorem c7_witness :
    ∃ pre post,
      (render_email [samplePaper] (.ok "EN: E\nZH: Z".data) false).1
        = .ok (pre ++ get_summary_html "E".data "Z".data ++ post) ∧
      SubStr "E".data (get_summary_html "E".data "Z".data) ∧
      SubStr "Z".data (get_summary_html "E".data "Z".data) ∧
      ∀ p ∈ [samplePaper], SubStr (paperBlock p) post :=
  c7_summary_first [samplePaper] (.ok "EN: E\nZH: Z".data) false "E".data "Z".data
    (by simp) (by rfl)

/-! ## Regex-parser lemmas (for C5) -/

lemma pyStrip_nil : pyStrip ([] : Str) = [] := rfl

lemma pyStrip_append_space {c : Char} (hc : pyIsSpace c = true) (x : Str) :
    pyStrip (x ++ [c]) = pyStrip x := by
  rw [pyStrip, pyStrip, List.dropWhile_append]
  by_cases h : (x.dropWhile pyIsSpace).isEmpty = true
  · rw [if_pos h]
    have hx : x.dropWhile pyIsSpace = [] := by simpa [List.isEmpty_iff] using h
    rw [hx]
    simp [List.dropWhile_cons, hc, List.rdropWhile_nil]
  · rw [if_neg h]
    exact List.rdropWhile_concat_pos _ _ _ hc

lemma pyStrip_single_space {c : Char} (hc : pyIsSpace c = true) : pyStrip [c] = [] := by
  have h := pyStrip_append_space hc []
  simpa [pyStrip_nil] using h

lemma dropWhile_head_false (p : Char → Bool) :
    ∀ (l : Str) (x : Char) (xs : Str), l.dropWhile p = x :: xs → p x = false := by
  intro l
  induction l with
  | nil => intro x xs h; simp at h
  | cons c rest ih =>
    intro x xs h
    rw [List.dropWhile_cons] at h
    by_cases hc : p c = true
    · rw [if_pos hc] at h
      exact ih x xs h
    · rw [if_neg hc] at h
      obtain ⟨h1, _⟩ := List.cons.inj h
      rw [← h1]
      exact Bool.eq_false_iff.mpr hc

lemma dropWhile_dropWhile (p : Char → Bool) (l : Str) :
    (l.dropWhile p).dropWhile p = l.dropWhile p := by
  cases h : l.dropWhile p with
  | nil => rfl
  | cons x xs =>
    have hx := dropWhile_head_false p l x xs h
    rw [List.dropWhile_cons, if_neg (by simp [hx])]

lemma nzh_not_prefix {x : Char} (xs : Str) (hx : pyIsSpace x = false) :
    nzhMarker.isPrefixOf (x :: xs) = false := by
  cases hb : nzhMarker.isPrefixOf (x :: xs) with
  | false => rfl
  | true =>
    exfalso
    obtain ⟨t2, ht⟩ := List.isPrefixOf_iff_prefix.mp hb
    have h2 : ('\n' :: "ZH:".data) ++ t2 = x :: xs := ht
    have hxn : '\n' = x := (List.cons.inj h2).1
    rw [← hxn] at hx
    exact absurd hx (by decide)

lemma wCandidates_eq (t : Str) :
    wCandidates t
      = (t.takeWhile pyIsSpace).length :: (List.range (t.takeWhile pyIsSpace).length).reverse := by
  rw [wCandidates, List.range_succ, List.reverse_append]
  simp

lemma drop_takeWhile_length (t : Str) :
    t.drop (t.takeWhile pyIsSpace).length = t.dropWhile pyIsSpace := by
  have h := @List.drop_left' Char (t.takeWhile pyIsSpace) (t.dropWhile pyIsSpace)
    (t.takeWhile pyIsSpace).length rfl
  rwa [List.takeWhile_append_dropWhile] at h

lemma drop_length_sub_one : ∀ (l : Str) (h : l ≠ []), l.drop (l.length - 1) = [l.getLast h]
  | [], h => absurd rfl h
  | [_], _ => rfl
  | c :: r :: rs, _ => by
    have ih := drop_length_sub_one (r :: rs) (by simp)
    have hlen : (c :: r :: rs).length - 1 = (r :: rs).length - 1 + 1 := by simp
    rw [hlen, List.drop_succ_cons, ih]
    exact congrArg (fun z => [z]) (List.getLast_cons (by simp)).symm

lemma lazyCap_some {look : Str → Bool} (hlook : look [] = true) :
    ∀ (r : Str), r ≠ [] → ∃ cap, lazyCap look r = some cap := by
  intro r
  induction r with
  | nil => intro h; exact absurd rfl h
  | cons c rest ih =>
    intro _
    by_cases hl : look rest = true
    · exact ⟨[c], by rw [lazyCap, if_pos hl]⟩
    · by_cases hrest : rest = []
      · subst hrest; exact absurd hlook hl
      · obtain ⟨cap, hcap⟩ := ih hrest
        exact ⟨c :: cap, by rw [lazyCap, if_neg hl, hcap]; rfl⟩

lemma matchFrom_of_r_ne {look : Str → Bool} (hlook : look [] = true) (t : Str)
    (hr : t.dropWhile pyIsSpace ≠ []) :
    matchFrom look t = lazyCap look (t.dropWhile pyIsSpace) := by
  obtain ⟨cap, hcap⟩ := lazyCap_some hlook _ hr
  rw [matchFrom, wCandidates_eq]
  simp only [List.findSome?_cons, drop_takeWhile_length, hcap]

lemma matchFrom_r_empty (look : Str → Bool) (hlook : look [] = true) (t : Str) (ht : t ≠ [])
    (hr : t.dropWhile pyIsSpace = []) :
    ∃ c, pyIsSpace c = true ∧ matchFrom look t = some [c] := by
  have htw : t.takeWhile pyIsSpace = t := by
    have h := List.takeWhile_append_dropWhile (p := pyIsSpace) (l := t)
    rwa [hr, List.append_nil] at h
  obtain ⟨n, hn⟩ : ∃ n, t.length = n + 1 := by
    cases hl : t.length with
    | zero => exact absurd (List.length_eq_zero.mp hl) ht
    | succ n => exact ⟨n, rfl⟩
  refine ⟨t.getLast ht, ?_, ?_⟩
  · exact List.mem_takeWhile_imp (x := t.getLast ht) (by rw [htw]; exact List.getLast_mem ht)
  · rw [matchFrom, wCandidates_eq, htw]
    have h1 : lazyCap look (t.drop t.length) = none := by rw [List.drop_length]; rfl
    have h2 : t.drop n = [t.getLast ht] := by
      have h3 := drop_length_sub_one t ht
      rwa [hn, Nat.add_sub_cancel] at h3
    simp only [List.findSome?_cons, h1]
    rw [hn, List.range_succ, List.reverse_append]
    simp only [List.reverse_singleton, List.singleton_append]
    simp only [List.findSome?_cons, h2]
    rw [lazyCap, if_pos hlook]

lemma matchFrom_isSome {look : Str → Bool} (hlook : look [] = true) (t : Str) (ht : t ≠ []) :
    ∃ cap, matchFrom look t = some cap := by
  by_cases hr : t.dropWhile pyIsSpace = []
  · obtain ⟨c, _, h⟩ := matchFrom_r_empty look hlook t ht hr
    exact ⟨[c], h⟩
  · rw [matchFrom_of_r_ne hlook t hr]
    exact lazyCap_some hlook _ hr

lemma reSearch_short {m : Str} (look : Str → Bool) :
    ∀ (s : Str), s.length < m.length → reSearch m look s = none := by
  intro s
  induction s with
  | nil => intro _; rfl
  | cons c rest ih =>
    intro hlen
    have hp : ¬ (m.isPrefixOf (c :: rest) = true) := by
      intro hb
      have hle := (List.isPrefixOf_iff_prefix.mp hb).length_le
      simp at hle hlen
      omega
    rw [reSearch, if_neg hp]
    exact ih (by simp at hlen ⊢; omega)

lemma reSearch_eq_bind {m : Str} {look : Str → Bool} (hlook : look [] = true) :
    ∀ (s : Str), reSearch m look s = (afterFirst m s).bind (matchFrom look) := by
  intro s
  induction s with
  | nil => rfl
  | cons c rest ih =>
    by_cases hp : m.isPrefixOf (c :: rest) = true
    · rw [reSearch, if_pos hp, afterFirst, if_pos hp, Option.some_bind]
      by_cases ht : (c :: rest).drop m.length = []
      · rw [ht]
        have hmf : matchFrom look ([] : Str) = none := rfl
        rw [hmf]
        have hlen : rest.length < m.length := by
          have h1 := List.drop_eq_nil_iff.mp ht
          simp at h1
          omega
        exact reSearch_short look rest hlen
      · obtain ⟨cap, hcap⟩ := matchFrom_isSome hlook _ ht
        rw [hcap]
    · rw [reSearch, if_neg hp, afterFirst, if_neg hp]
      exact ih

lemma lazyCap_dollar : ∀ (r : Str), r ≠ [] →
    ∃ cap, lazyCap dollarLook r = some cap ∧ (r = cap ∨ r = cap ++ ['\n']) := by
  intro r
  induction r with
  | nil => intro h; exact absurd rfl h
  | cons c rest ih =>
    intro _
    by_cases hrest : rest = []
    · subst hrest
      exact ⟨[c], by rw [lazyCap, if_pos (by decide)], Or.inl rfl⟩
    · by_cases hl : dollarLook rest = true
      · have hrn : rest = ['\n'] := by
          rw [dollarLook] at hl
          rcases Bool.or_eq_true_iff.mp hl with h1 | h1
          · exact absurd (List.isEmpty_iff.mp h1) hrest
          · simpa using h1
        subst hrn
        exact ⟨[c], by rw [lazyCap, if_pos hl], Or.inr rfl⟩
      · obtain ⟨cap, hcap, hdisj⟩ := ih hrest
        refine ⟨c :: cap, by rw [lazyCap, if_neg hl, hcap]; rfl, ?_⟩
        rcases hdisj with hd | hd
        · exact Or.inl (by rw [← hd])
        · exact Or.inr (by rw [hd]; rfl)

lemma lazyCap_en : ∀ (r : Str), r ≠ [] → nzhMarker.isPrefixOf r = false →
    ∃ cap, lazyCap enLook r = some cap ∧
      (takeUntil nzhMarker r = cap ∨ takeUntil nzhMarker r = cap ++ ['\n']) := by
  intro r
  induction r with
  | nil => intro h _; exact absurd rfl h
  | cons c rest ih =>
    intro _ h
    by_cases hrest : rest = []
    · subst hrest
      refine ⟨[c], by rw [lazyCap, if_pos (by decide)], Or.inl ?_⟩
      rw [takeUntil, if_neg (by simp [h]), takeUntil]
    · by_cases hp : nzhMarker.isPrefixOf rest = true
      · have hlook : enLook rest = true := by rw [enLook, hp]; simp
        refine ⟨[c], by rw [lazyCap, if_pos hlook], Or.inl ?_⟩
        obtain ⟨r1, rs, hre⟩ := List.exists_cons_of_ne_nil hrest
        subst hre
        rw [takeUntil, if_neg (by simp [h]), takeUntil, if_pos hp]
      · by_cases hnl : rest = ['\n']
        · have hlook : enLook rest = true := by
            rw [enLook, hnl]
            simp
          refine ⟨[c], by rw [lazyCap, if_pos hlook], Or.inr ?_⟩
          subst hnl
          rw [takeUntil, if_neg (by simp [h]), takeUntil,
            if_neg (by simp [show nzhMarker.isPrefixOf ['\n'] = false from by decide]), takeUntil]
          rfl
        · have hlook : ¬ (enLook rest = true) := by
            rw [enLook]
            simp only [Bool.or_eq_true]
            push_neg
            refine ⟨⟨by simp [hp], ?_⟩, ?_⟩
            · simp [List.isEmpty_iff, hrest]
            · simpa using hnl
          obtain ⟨cap, hcap, hdisj⟩ := ih hrest (Bool.eq_false_iff.mpr hp)
          refine ⟨c :: cap, by rw [lazyCap, if_neg hlook, hcap]; rfl, ?_⟩
          rcases hdisj with hd | hd
          · exact Or.inl (by rw [takeUntil, if_neg (by simp [h]), hd])
          · exact Or.inr (by rw [takeUntil, if_neg (by simp [h]), hd]; rfl)

/-- The EN-side capture of the embedded regex search agrees with the amended
spec wording. -/
lemma en_capture_eq (s : Str) :
    pyStrip ((reSearch enMarker enLook s).getD []) = specParseEn s := by
  rw [reSearch_eq_bind (by decide) s, specParseEn]
  cases haf : afterFirst enMarker s with
  | none => simp [pyStrip_nil]
  | some t =>
    simp only [Option.some_bind]
    by_cases ht : t = []
    · subst ht
      simp [show matchFrom enLook ([] : Str) = none from rfl, pyStrip_nil]
    · by_cases hr : t.dropWhile pyIsSpace = []
      · obtain ⟨c, hc, hmf⟩ := matchFrom_r_empty enLook (by decide) t ht hr
        rw [hmf]
        simp only [Option.getD_some, hr, if_pos rfl]
        exact pyStrip_single_space hc
      · rw [matchFrom_of_r_ne (by decide) t hr]
        have hnp : nzhMarker.isPrefixOf (t.dropWhile pyIsSpace) = false := by
          obtain ⟨x, xs, hxe⟩ := List.exists_cons_of_ne_nil hr
          rw [hxe]
          exact nzh_not_prefix xs (dropWhile_head_false pyIsSpace t x xs hxe)
        obtain ⟨cap, hcap, hdisj⟩ := lazyCap_en _ hr hnp
        rw [hcap]
        simp only [Option.getD_some, if_neg hr]
        rcases hdisj with hd | hd
        · rw [hd]
        · rw [hd, pyStrip_append_space (by decide)]

/-- The ZH-side capture of the embedded regex search agrees with the amended
spec wording. -/
lemma zh_capture_eq (s : Str) :
    pyStrip ((reSearch zhMarker dollarLook s).getD []) = specParseZh s := by
  rw [reSearch_eq_bind (by decide) s, specParseZh]
  cases haf : afterFirst zhMarker s with
  | none => simp [pyStrip_nil]
  | some t =>
    simp only [Option.some_bind]
    by_cases ht : t = []
    · subst ht
      simp [show matchFrom dollarLook ([] : Str) = none from rfl, pyStrip_nil]
    · have hstrip : pyStrip t = pyStrip (t.dropWhile pyIsSpace) := by
        rw [pyStrip, pyStrip, dropWhile_dropWhile]
      by_cases hr : t.dropWhile pyIsSpace = []
      · obtain ⟨c, hc, hmf⟩ := matchFrom_r_empty dollarLook (by decide) t ht hr
        rw [hmf]
        simp only [Option.getD_some]
        rw [pyStrip_single_space hc, hstrip, hr, pyStrip_nil]
      · rw [matchFrom_of_r_ne (by decide) t hr]
        obtain ⟨cap, hcap, hdisj⟩ := lazyCap_dollar _ hr
        rw [hcap]
        simp only [Option.getD_some]
        rw [hstrip]
        rcases hdisj with hd | hd
        · rw [hd]
        · rw [hd, pyStrip_append_space (by decide)]

/-- C5 counterexample: on the response `"EN: a ZH: b"` (a `ZH:` marker not
preceded by a newline) the parser's EN field is `"a ZH: b"`, not `"a"` as the
claim's "up to the `ZH:` marker" reading would require: the regex terminator
is the newline-preceded `"\nZH:"`. -/
theorem c5_cex :
    (parseDaily "EN: a ZH: b".data).en = "a ZH: b".data ∧
    (parseDaily "EN: a ZH: b".data).en ≠ "a".data ∧
    (parseDaily "EN: a ZH: b".data).zh = "b".data := by
  refine ⟨by decide, by decide, by decide⟩

/-- C5 (amended): for every model response string, the parser captures, after
the first `EN:` and greedy whitespace skipping, everything up to a
newline-preceded `ZH:` marker (`"\nZH:"`) or to the end of the string as the
English field, and everything after the first `ZH:` to the end of the string
as the Chinese field, both stripped; if both captured fields are empty, both
fields are set to the stripped raw response text. -/
theorem c5_parser_amended (s : Str) : parseDaily s = specParseAmended s := by
  rw [parseDaily, specParseAmended]
  simp only [en_capture_eq, zh_capture_eq]

end ConstructEmail
